import Mathlib

/-
  Verification of the viam-modules/system-audio core against its
  natural-language specification.

  The C++ sources are shallowly embedded: machine integers become Nat/Int
  (with explicit `% 2^w` wherever two's-complement wrap-around matters),
  the circular sample buffer becomes a record carrying the slot function and
  the monotone write counter, and fallible operations return `Except`.
  Native-library calls (LAME, soxr) and wall-clock reads are abstracted as
  explicit oracle parameters; everything else is translated line by line
  from the cited source files.
-/

set_option autoImplicit false
set_option maxHeartbeats 1000000
set_option maxRecDepth 8192

namespace SystemAudio

/-! ## CircularSampleBuffer (src/src/audio_buffer.cpp, class AudioBuffer)

`audio_buffer` is the preallocated slot array (indexed `0 .. buffer_capacity-1`,
modelled as a total function), `total_samples_written` the monotone counter.
Sample values are `int16_t`; we carry them as `Int`. -/

structure AudioBuffer where
  buffer_capacity : Nat
  audio_buffer : Nat → Int
  total_samples_written : Nat

/-- A freshly constructed buffer: all slots zero-initialised, counter zero
(audio_buffer.cpp lines 44-47). -/
def mkAudioBuffer (capacity : Nat) : AudioBuffer :=
  { buffer_capacity := capacity, audio_buffer := fun _ => 0, total_samples_written := 0 }

/-- `AudioBuffer::write_sample` (audio_buffer.cpp lines 50-60): store at
`total mod capacity`, then increment the counter. -/
def write_sample (b : AudioBuffer) (s : Int) : AudioBuffer :=
  { b with
    audio_buffer := fun j =>
      if j = b.total_samples_written % b.buffer_capacity then s else b.audio_buffer j
    total_samples_written := b.total_samples_written + 1 }

/-- The state after the producer has written the samples of `hs`, in order,
into a fresh buffer (one `write_sample` call per sample, as the real-time
callback does). -/
def writeAll (b : AudioBuffer) (hs : List Int) : AudioBuffer :=
  hs.foldl write_sample b

/-- Result of `AudioBuffer::read_samples`: the returned count, the samples
copied into the caller's output array, and the by-reference read position. -/
structure ReadResult where
  samples_read : Nat
  data : List Int
  read_position : Nat
  deriving DecidableEq

/-- `AudioBuffer::read_samples` (audio_buffer.cpp lines 62-97), translated
branch by branch.  `read_position > W` returns zero samples leaving the
position alone; an overrun (`W > read_position + capacity`) first skips the
position to `W - capacity`; then `to_read = min(sample_count, available)`
samples are copied from the ring and the position advances by `to_read`.
The C++ function is `noexcept` and total, as is this model. -/
def read_samples (b : AudioBuffer) (sample_count : Nat) (read_position : Nat) : ReadResult :=
  let current_write_pos := b.total_samples_written
  if read_position > current_write_pos then
    ⟨0, [], read_position⟩
  else
    let pos :=
      if current_write_pos > read_position + b.buffer_capacity then
        current_write_pos - b.buffer_capacity
      else read_position
    let available := current_write_pos - pos
    let to_read := min sample_count available
    ⟨to_read,
     (List.range to_read).map (fun i => b.audio_buffer ((pos + i) % b.buffer_capacity)),
     pos + to_read⟩

theorem writeAll_buffer_capacity (b : AudioBuffer) (hs : List Int) :
    (writeAll b hs).buffer_capacity = b.buffer_capacity := by
  induction hs generalizing b with
  | nil => rfl
  | cons s rest ih => simpa [writeAll, write_sample] using ih (write_sample b s)

theorem writeAll_total (b : AudioBuffer) (hs : List Int) :
    (writeAll b hs).total_samples_written = b.total_samples_written + hs.length := by
  induction hs generalizing b with
  | nil => simp [writeAll]
  | cons s rest ih =>
      have hstep : writeAll b (s :: rest) = writeAll (write_sample b s) rest := rfl
      rw [hstep, ih (write_sample b s)]
      simp [write_sample]
      omega

theorem writeAll_append_singleton (b : AudioBuffer) (hs : List Int) (s : Int) :
    writeAll b (hs ++ [s]) = write_sample (writeAll b hs) s := by
  simp [writeAll, List.foldl_append]

/-- Ring-slot invariant: after writing the history `hs` into a fresh buffer of
capacity `C`, every absolute index `a` still inside the valid window
`[hs.length - C, hs.length)` is found, unmodified, at slot `a % C`. -/
theorem writeAll_slot (C : Nat) (hC : 0 < C) (hs : List Int) (a : Nat)
    (ha : a < hs.length) (hw : hs.length ≤ a + C) :
    (writeAll (mkAudioBuffer C) hs).audio_buffer (a % C) = hs.getD a 0 := by
  induction hs using List.reverseRecOn with
  | nil => simp at ha
  | append_singleton hs s ih =>
      rw [writeAll_append_singleton]
      have hcap : (writeAll (mkAudioBuffer C) hs).buffer_capacity = C :=
        writeAll_buffer_capacity _ _
      have htot : (writeAll (mkAudioBuffer C) hs).total_samples_written = hs.length := by
        simpa [mkAudioBuffer] using writeAll_total (mkAudioBuffer C) hs
      have hlen : (hs ++ [s]).length = hs.length + 1 := by simp
      rcases Nat.lt_or_ge a hs.length with hlt | hge
      · -- index strictly inside the old history: untouched by the new write
        have hne : a % C ≠ hs.length % C := by
          intro h
          have hdvd : C ∣ hs.length - a :=
            (Nat.modEq_iff_dvd' (Nat.le_of_lt hlt)).mp h
          rcases hdvd with ⟨k, hk⟩
          rw [hlen] at hw
          rcases k with _ | k
          · omega
          · have : C * (k + 1) ≥ C := by nlinarith
            omega

        rw [write_sample]
        simp only [hcap, htot]
        rw [if_neg hne]
        have hw' : hs.length ≤ a + C := by rw [hlen] at hw; omega
        rw [ih hlt hw']
        rw [List.getD_append _ _ _ _ hlt]
      · -- the freshly written index
        have ha' : a = hs.length := by rw [hlen] at ha; omega
        subst ha'
        have hgd : (hs ++ [s]).getD hs.length 0 = s := by
          rw [List.getD_eq_getElem?_getD, List.getElem?_concat_length]
          rfl
        rw [hgd, write_sample]
        simp only [hcap, htot]
        simp

/-- The read start position as the specification describes it: the requested
position, first advanced to `W - C` when it has fallen more than `C` samples
behind the write position `W`. -/
def startPos (C W pos : Nat) : Nat :=
  if C < W - pos then W - C else pos

/-- C1: `read_samples(out, n, read_pos)` on a buffer of capacity `C` holding
write position `W = hs.length` behaves exactly as specified: if
`read_pos > W` it returns 0 samples and leaves `read_pos` unchanged;
otherwise, writing `start` for `read_pos` first advanced to `W - C` when
`W - read_pos > C`, it returns `k = min n (W - start)`, copies exactly the
samples at absolute history indices `[start, start + k)`, and leaves the
read position at `start + k`.  (The C++ function is `noexcept`; the model is
a total function, so it cannot throw.) -/
theorem read_samples_matches_spec (C : Nat) (hC : 0 < C) (hs : List Int)
    (n pos : Nat) :
    (hs.length < pos →
      read_samples (writeAll (mkAudioBuffer C) hs) n pos = ⟨0, [], pos⟩) ∧
    (pos ≤ hs.length →
      read_samples (writeAll (mkAudioBuffer C) hs) n pos =
        { samples_read := min n (hs.length - startPos C hs.length pos)
          data := (List.range (min n (hs.length - startPos C hs.length pos))).map
            (fun i => hs.getD (startPos C hs.length pos + i) 0)
          read_position := startPos C hs.length pos +
            min n (hs.length - startPos C hs.length pos) }) := by
  have hcap : (writeAll (mkAudioBuffer C) hs).buffer_capacity = C :=
    writeAll_buffer_capacity _ _
  have htot : (writeAll (mkAudioBuffer C) hs).total_samples_written = hs.length := by
    simpa [mkAudioBuffer] using writeAll_total (mkAudioBuffer C) hs
  constructor
  · intro hfar
    rw [read_samples]
    simp only [htot]
    rw [if_pos hfar]
  · intro hle
    rw [read_samples]
    simp only [htot, hcap]
    rw [if_neg (by omega)]
    have hstart : (if hs.length > pos + C then hs.length - C else pos) =
        startPos C hs.length pos := by
      rw [startPos]; split <;> split <;> omega
    rw [hstart]
    have hlow : hs.length ≤ startPos C hs.length pos + C := by
      rw [startPos]; split <;> omega
    have hhigh : startPos C hs.length pos ≤ hs.length := by
      rw [startPos]; split <;> omega
    congr 1
    apply List.map_congr_left
    intro i hi
    rw [List.mem_range] at hi
    apply writeAll_slot C hC hs _ (by omega) (by omega)

/-- Witness for C1 (scenario S2-like with an overrun): capacity 3, history
`[10,20,30,40,50]`, request 2 samples from position 1.  The position is first
skipped to `5 - 3 = 2`, then samples 30, 40 are returned and the position
advances to 4. -/
theorem read_samples_matches_spec_witness :
    read_samples (writeAll (mkAudioBuffer 3) [10, 20, 30, 40, 50]) 2 1 =
      ⟨2, [30, 40], 4⟩ := by
  have h := (read_samples_matches_spec 3 (by decide) [10, 20, 30, 40, 50] 2 1).2 (by decide)
  exact h.trans (by decide)

/-! ## Speaker playback drain wait (src/src/speaker.cpp, Speaker::play lines 307-319)

`OutputStreamContext::playback_position` is a `std::atomic<int>`
(src/src/audio_stream.hpp line 64); `start_position` is a `uint64_t`.  The
wait loop is
`while (playback_position.load() - start_position < final_num_samples)`,
so the loaded `int` is converted to `uint64_t` and the subtraction is
performed modulo `2^64`.  We model the successive loads of the playback
cursor as an explicit trace. -/

/-- The modulus of `uint64_t` arithmetic. -/
def U64 : Nat := 2 ^ 64

/-- Conversion of a C++ `int` value to `uint64_t` (two's-complement
sign extension, i.e. reduction modulo `2^64`). -/
def intToUInt64 (z : Int) : Nat := (z % (U64 : Int)).toNat

/-- `uint64_t` subtraction `a - b` (wrap-around modulo `2^64`). -/
def u64sub (a b : Nat) : Nat := (a % U64 + U64 - b % U64) % U64

/-- The exit condition of the drain-wait loop in `Speaker::play`: the loop
keeps spinning while `playback_position.load() - start_position <
final_num_samples` evaluated in `uint64_t` arithmetic, and exits as soon as
that comparison is false. -/
def drain_wait_done (cursor : Int) (start_position final_num_samples : Nat) : Bool :=
  decide (¬ u64sub (intToUInt64 cursor) start_position < final_num_samples)

/-- The drain-wait loop itself, with the successive values loaded from
`playback_position` given by `trace` (one load per iteration) and an explicit
iteration bound.  It returns the cursor value observed at the iteration on
which the loop exited, or `none` if the bound ran out first.  The
reconfigure-interruption branch is not taken in this model (the claim is
about calls that return normally). -/
def play_drain_loop (fuel : Nat) (trace : Nat → Int)
    (start_position final_num_samples t : Nat) : Option Int :=
  match fuel with
  | 0 => none
  | fuel + 1 =>
      if drain_wait_done (trace t) start_position final_num_samples then some (trace t)
      else play_drain_loop fuel trace start_position final_num_samples (t + 1)

/-- Key arithmetic fact: when the loaded cursor is at or beyond
`start_position` (and within `2^64` of it), the wrapped `uint64_t`
subtraction computes the true distance. -/
theorem u64sub_exact (c : Int) (start : Nat)
    (h1 : (start : Int) ≤ c) (h2 : c < (start : Int) + (U64 : Int)) :
    (u64sub (intToUInt64 c) start : Int) = c - start := by
  have hU : U64 = 18446744073709551616 := by norm_num [U64]
  obtain ⟨d, hd⟩ : ∃ d : Nat, c = (start : Int) + d := by
    refine ⟨(c - start).toNat, by omega⟩
  subst hd
  have hdlt : d < U64 := by rw [hU] at h2 ⊢; omega
  have hint : intToUInt64 ((start : Int) + d) = (start + d) % U64 := by
    have h3 : ((start : Int) + d) = ((start + d : Nat) : Int) := by push_cast; ring
    rw [intToUInt64, h3, ← Int.natCast_mod, Int.toNat_natCast]
  rw [hint, u64sub]
  suffices hnat : ((start + d) % U64 % U64 + U64 - start % U64) % U64 = d by
    rw [hnat]; ring
  rw [hU] at hdlt ⊢
  omega

/-- C2 counterexample: the claim asserts the drain wait blocks until
`playback_cursor ≥ start_position + num_samples` "for every initial relation
between the playback cursor and the write position".  But when the cursor is
*behind* the snapshotted start position (here cursor 0, start 100), the
`uint64_t` subtraction wraps to a huge value, the loop condition is false at
once, and `play` returns on its very first check with the cursor (0) far
short of `start + num = 110`. -/
theorem play_drain_wraparound_counterexample :
    play_drain_loop 1 (fun _ => 0) 100 10 0 = some 0 ∧
      ¬ ((100 : Int) + 10 ≤ 0) := by
  constructor
  · decide
  · decide

/-- C2 (amended): provided every observed playback cursor is at or beyond the
snapshotted `start_position` (and within `2^64` of it, which holds for any
real execution), a drain wait that exits normally does so only once
`playback_cursor ≥ start_position + final_num_samples`: `play` blocks until
every sample it enqueued has been consumed by the output callback. -/
theorem play_drain_complete (fuel : Nat) (trace : Nat → Int)
    (start_position final_num_samples t : Nat) (c : Int)
    (hlo : ∀ i, (start_position : Int) ≤ trace i)
    (hhi : ∀ i, trace i < (start_position : Int) + (U64 : Int))
    (h : play_drain_loop fuel trace start_position final_num_samples t = some c) :
    (start_position : Int) + final_num_samples ≤ c := by
  induction fuel generalizing t with
  | zero => simp [play_drain_loop] at h
  | succ fuel ih =>
      rw [play_drain_loop] at h
      by_cases hdone : drain_wait_done (trace t) start_position final_num_samples
      · rw [if_pos hdone] at h
        have hc : c = trace t := by
          injection h with h'
          omega
        subst hc
        rw [drain_wait_done, decide_eq_true_iff, not_lt] at hdone
        have hx := u64sub_exact (trace t) start_position (hlo t) (hhi t)
        have : (final_num_samples : Int) ≤ (u64sub (intToUInt64 (trace t)) start_position : Int) := by
          exact_mod_cast hdone
        omega
      · rw [if_neg hdone] at h
        exact ih (t + 1) h

/-- Witness for C2 (amended): a cursor trace advancing 7 samples per tick up
to 24, start position 3, 20 samples enqueued.  The loop exits (within 5
ticks) with the cursor at 24, which is at least 3 + 20. -/
theorem play_drain_complete_witness :
    play_drain_loop 5 (fun i => min (3 + 7 * (i : Int)) 24) 3 20 0 = some 24 ∧
      (3 : Int) + 20 ≤ 24 := by
  refine ⟨by decide, ?_⟩
  exact play_drain_complete 5 (fun i => min (3 + 7 * (i : Int)) 24) 3 20 0 24
    (fun i => by show (3 : Int) ≤ min (3 + 7 * (i : Int)) 24; omega)
    (fun i => by
      show min (3 + 7 * (i : Int)) 24 < 3 + (U64 : Int)
      have hU : U64 = 18446744073709551616 := by norm_num [U64]
      rw [hU]; omega)
    (by decide)

/-! ## Microphone capture loop (src/src/microphone.cpp, Microphone::get_audio lines 336-437)

The loop runs `while (std::chrono::steady_clock::now() < end_time)`.
`end_time` is `time_point::max()` (modelled as `none`) until the first chunk
has been read, at which moment `end_time = now() + duration_seconds`
(microphone.cpp lines 426-430).  Wall-clock time is modelled explicitly:
`read_ns` is the processing cost of a chunk iteration and `sleep_ns` the
10 ms starvation sleep of line 380.  The writer is stopped (fixed
`write_position`), as in scenario S5 where the history was captured before
the call; the reconfigure-detection block (lines 341-371) is not triggered
and the chunk handler keeps returning `true`. -/

structure CaptureLoopState where
  now_ns : Nat
  read_position : Nat
  chunks_delivered : Nat
  end_time_ns : Option Nat
  deriving DecidableEq

/-- One iteration of the `get_audio` while-loop body: starved iterations
sleep 10 ms and continue; otherwise one chunk of `samples_per_chunk` samples
is read (advancing the read position), delivered, and the wall-clock
duration timer is started if this was the first chunk. -/
def get_audio_iteration (write_position samples_per_chunk duration_ns read_ns sleep_ns : Nat)
    (s : CaptureLoopState) : CaptureLoopState :=
  if write_position - s.read_position < samples_per_chunk then
    { s with now_ns := s.now_ns + sleep_ns }
  else
    { now_ns := s.now_ns + read_ns
      read_position := s.read_position + samples_per_chunk
      chunks_delivered := s.chunks_delivered + 1
      end_time_ns :=
        match s.end_time_ns with
        | some e => some e
        | none => some (s.now_ns + read_ns + duration_ns) }

/-- The `get_audio` while-loop: before each iteration the wall clock is
compared against `end_time` (never reached while the timer has not started). -/
def get_audio_loop (write_position samples_per_chunk duration_ns read_ns sleep_ns : Nat) :
    Nat → CaptureLoopState → CaptureLoopState
  | 0, s => s
  | fuel + 1, s =>
      match s.end_time_ns with
      | some e =>
          if s.now_ns < e then
            get_audio_loop write_position samples_per_chunk duration_ns read_ns sleep_ns fuel
              (get_audio_iteration write_position samples_per_chunk duration_ns read_ns sleep_ns s)
          else s
      | none =>
          get_audio_loop write_position samples_per_chunk duration_ns read_ns sleep_ns fuel
            (get_audio_iteration write_position samples_per_chunk duration_ns read_ns sleep_ns s)

/-- PCM chunk sizing (microphone.cpp lines 110-114):
`samples_per_chunk = int(sample_rate * 0.1) * num_channels`; for the sample
rates in play `int(rate * 0.1) = rate / 10` exactly. -/
def calculate_chunk_size_pcm (sample_rate num_channels : Nat) : Nat :=
  sample_rate / 10 * num_channels

/-- C3: refuted on the code.  The claim (and the repository's own test
`HistoricalDataRespectsDuration`, microphone_test.cpp lines 1234-1275) says
the duration limit is computed from chunk timestamps, so scenario S5
(48 kHz stereo, 20 s of history already captured, read from t = 5 s for
10 s) must deliver exactly 100 chunks of 100 ms = 48000 x 2 x 10 samples.
The code instead starts a *wall-clock* `steady_clock` timer when the first
chunk is read (microphone.cpp lines 426-430; the sample-based duration
variables declared at lines 284-287 are never used) and loops until 10 real
seconds elapse.  Evaluating the loop model at S5 (write position 1 920 000,
initial read position 960 001 = sample_index(5 s) + 1, chunk 9600 samples,
instantaneous reads, 10 ms starvation sleeps): every remaining full chunk of
history is delivered immediately - 99 chunks, 950 400 samples - and the loop
then idles until the wall deadline, never producing the claimed 100 chunks.
-/
theorem get_audio_duration_is_wall_clock :
    get_audio_loop 1920000 (calculate_chunk_size_pcm 48000 2) 10000000000 0 10000000 1200
        ⟨0, 960001, 0, none⟩ =
      ⟨10000000000, 1910401, 99, some 10000000000⟩ ∧
    (99 : Nat) ≠ 100 ∧ 99 * calculate_chunk_size_pcm 48000 2 ≠ 48000 * 2 * 10 := by
  refine ⟨by decide, by decide, by decide⟩

/-- C4: refuted on the code.  The spec's historical-throttle policy (sleep
`historical_throttle_ms` between iterations whenever a historical read is
more than one second behind real time) does not exist in
`Microphone::get_audio`: the loop body (microphone.cpp lines 336-437)
contains no such sleep, `parseConfigAttributes` (lines 151-172) never reads
`historical_throttle_ms`, and the `historical_throttle_ms_` member declared
in microphone.hpp line 95 (with its 50 ms default, line 20, and the
expectations of microphone_test.cpp lines 348-392) is never assigned or
used.  Evaluated on a historical read: at each of the first 90 iterations
the reader is more than one second (96 000 samples) behind the writer, yet
the 90 consecutive chunk deliveries consume zero model time - no throttle
sleep is ever inserted between iterations. -/
theorem get_audio_has_no_historical_throttle :
    (∀ k : Fin 90, 96000 < 1920000 -
        (get_audio_loop 1920000 9600 10000000000 0 10000000 k.val
            ⟨0, 960001, 0, none⟩).read_position) ∧
    (get_audio_loop 1920000 9600 10000000000 0 10000000 90
        ⟨0, 960001, 0, none⟩).now_ns = 0 ∧
    (get_audio_loop 1920000 9600 10000000000 0 10000000 90
        ⟨0, 960001, 0, none⟩).chunks_delivered = 90 := by
  refine ⟨by decide, by decide, by decide⟩

/-! ## Initial read position (src/src/microphone.cpp, get_initial_read_position lines 739-799)

The context carries the fields the function reads: the current write
position, the capacity, the stream start wall time in nanoseconds, and
`get_sample_number_from_timestamp` (audio_stream.cpp lines 115-125, whose
internal double arithmetic is abstracted as the function field
`sample_index`). -/

structure InputStreamCtx where
  buffer_capacity : Nat
  write_position : Nat
  stream_start_ns : Int
  sample_index : Int → Nat

inductive ReadPosError where
  | negativeTimestamp
  | beforeStreamStart
  | futureTimestamp
  | overwritten
  deriving DecidableEq

/-- `get_initial_read_position` (microphone.cpp lines 739-799), branch by
branch: timestamp 0 returns the current write position; negative timestamps
and timestamps before the stream start are invalid; otherwise the read
position is `sample_index(ts) + 1`, invalid when in the future
(`read_position > write_position`) or overwritten
(`write_position > read_position + capacity`). -/
def get_initial_read_position (ctx : InputStreamCtx) (previous_timestamp : Int) :
    Except ReadPosError Nat :=
  if previous_timestamp = 0 then
    .ok ctx.write_position
  else if previous_timestamp < 0 then
    .error .negativeTimestamp
  else if previous_timestamp < ctx.stream_start_ns then
    .error .beforeStreamStart
  else
    let read_position := ctx.sample_index previous_timestamp + 1
    if read_position > ctx.write_position then
      .error .futureTimestamp
    else if ctx.write_position > read_position + ctx.buffer_capacity then
      .error .overwritten
    else
      .ok read_position

/-- C6: the initial read position is exactly the specified pure function of
the buffer state and the timestamp `ts`: `ts = 0` yields the write
position; `ts < 0` and `ts` before the stream start raise invalid-argument;
otherwise the candidate position is `sample_index(ts) + 1`, an error is
raised if and only if it is in the future (`> write_position`) or already
overwritten (`write_position - it > capacity`), and in the remaining cases
that position is returned. -/
theorem get_initial_read_position_matches_spec (ctx : InputStreamCtx) (ts : Int) :
    (ts = 0 → get_initial_read_position ctx ts = .ok ctx.write_position) ∧
    (ts < 0 → get_initial_read_position ctx ts = .error .negativeTimestamp) ∧
    (0 < ts → ts < ctx.stream_start_ns →
      get_initial_read_position ctx ts = .error .beforeStreamStart) ∧
    (0 < ts → ctx.stream_start_ns ≤ ts →
      ((∃ e, get_initial_read_position ctx ts = .error e) ↔
        (ctx.write_position < ctx.sample_index ts + 1 ∨
          ctx.buffer_capacity < ctx.write_position - (ctx.sample_index ts + 1)))) ∧
    (0 < ts → ctx.stream_start_ns ≤ ts →
      ctx.sample_index ts + 1 ≤ ctx.write_position →
      ctx.write_position - (ctx.sample_index ts + 1) ≤ ctx.buffer_capacity →
      get_initial_read_position ctx ts = .ok (ctx.sample_index ts + 1)) := by
  refine ⟨?_, ?_, ?_, ?_, ?_⟩
  · intro h; rw [get_initial_read_position, if_pos h]
  · intro h
    rw [get_initial_read_position, if_neg (by omega), if_pos h]
  · intro h1 h2
    rw [get_initial_read_position, if_neg (by omega), if_neg (by omega), if_pos h2]
  · intro h1 h2
    rw [get_initial_read_position, if_neg (by omega), if_neg (by omega), if_neg (by omega)]
    constructor
    · rintro ⟨e, he⟩
      by_cases hf : ctx.sample_index ts + 1 > ctx.write_position
      · left; omega
      · rw [if_neg hf] at he
        by_cases ho : ctx.write_position > ctx.sample_index ts + 1 + ctx.buffer_capacity
        · right; omega
        · rw [if_neg ho] at he
          exact absurd he (by simp)
    · intro h
      by_cases hf : ctx.sample_index ts + 1 > ctx.write_position
      · exact ⟨.futureTimestamp, by rw [if_pos hf]⟩
      · have ho : ctx.write_position > ctx.sample_index ts + 1 + ctx.buffer_capacity := by
          omega
        exact ⟨.overwritten, by rw [if_neg hf, if_pos ho]⟩
  · intro h1 h2 h3 h4
    rw [get_initial_read_position, if_neg (by omega), if_neg (by omega), if_neg (by omega),
      if_neg (by omega), if_neg (by omega)]

/-- Witness for C6: a context with write position 1000, capacity 500, stream
start 100 ns, and a concrete `sample_index`; a timestamp of 200 ns yields
read position `sample_index(200) + 1 = 901`. -/
theorem get_initial_read_position_witness :
    get_initial_read_position
      ⟨500, 1000, 100, fun t => t.toNat * 3⟩ 300 = .ok 901 := by
  have h := (get_initial_read_position_matches_spec
    ⟨500, 1000, 100, fun t => t.toNat * 3⟩ 300).2.2.2.2
    (by decide) (by decide) (by decide) (by decide)
  simpa using h

/-! ## Active-stream counter (src/src/microphone.cpp, StreamGuard lines 117-129
and the explicit decrement at lines 477-480)

`StreamGuard`'s constructor increments `active_streams_` and its destructor
decrements it, both under `stream_ctx_mu_`.  The guard is constructed at
line 277 (after codec validation); in addition the normal-completion path of
`get_audio` decrements the counter explicitly at lines 477-480 before the
guard's destructor runs. -/

/-- `StreamGuard::StreamGuard`: increments the counter. -/
def streamGuard_enter (active_streams : Int) : Int := active_streams + 1

/-- `StreamGuard::~StreamGuard`: decrements the counter, on every exit of
the scope (return, throw, or fall-through). -/
def streamGuard_leave (active_streams : Int) : Int := active_streams - 1

/-- The explicit `active_streams_--` executed at microphone.cpp lines
477-480 when the while-loop exits normally (duration elapsed). -/
def get_audio_explicit_decrement (active_streams : Int) : Int := active_streams - 1

/-- Counter effect of a `get_audio` call that exits early (handler returned
false, line 435, or an exception after the guard was constructed): guard
construction then guard destruction. -/
def get_audio_counter_early_exit (c : Int) : Int :=
  streamGuard_leave (streamGuard_enter c)

/-- Counter effect of a `get_audio` call that completes normally: guard
construction, then the explicit decrement of lines 477-480, then the guard's
destructor. -/
def get_audio_counter_normal_exit (c : Int) : Int :=
  streamGuard_leave (get_audio_explicit_decrement (streamGuard_enter c))

/-- C7: refuted on the code.  On early exits the counter does return to its
prior value, but a `get_audio` call that completes normally decrements the
counter twice - once explicitly at microphone.cpp lines 477-480 and once in
`StreamGuard`'s destructor - so the counter ends one *below* its value from
before the call (eventually going negative), contradicting the claim and the
guard's own stated purpose ("guard to increment and decrement the active
stream count", line 276). -/
theorem get_audio_counter_double_decrement (c : Int) :
    get_audio_counter_early_exit c = c ∧
    get_audio_counter_normal_exit c = c - 1 ∧
    get_audio_counter_normal_exit c ≠ c := by
  refine ⟨?_, ?_, ?_⟩ <;>
    simp [get_audio_counter_early_exit, get_audio_counter_normal_exit,
      streamGuard_enter, streamGuard_leave, get_audio_explicit_decrement]

/-! ## MP3 decoding (src/src/mp3_decoder.cpp, decode_mp3_to_pcm16 lines 86-200)

Bytes are `Nat` values below 256.  `x & 0x7F` is `x % 128`, and the
bitwise-or of the four disjoint shifted 7-bit fields equals their sum. -/

/-- `skip_id3v2_tag` (mp3_decoder.cpp lines 9-24): 0 unless the data starts
with the literal "ID3" (73, 68, 51) and is at least 10 bytes long; otherwise
10 plus the 28-bit synchsafe size stored in bytes 6-9. -/
def skip_id3v2_tag (data : List Nat) : Nat :=
  if data.length < 10 ∨ data.getD 0 0 ≠ 73 ∨ data.getD 1 0 ≠ 68 ∨ data.getD 2 0 ≠ 51 then 0
  else
    data.getD 6 0 % 128 * 2097152 + data.getD 7 0 % 128 * 16384 +
      data.getD 8 0 % 128 * 128 + data.getD 9 0 % 128 + 10

/-- The offset at which `decode_mp3_to_pcm16` starts feeding the data to the
native decoder (mp3_decoder.cpp lines 98 and 114-116): exactly the ID3v2
skip, nothing more. -/
def mp3_feed_offset (data : List Nat) : Nat := skip_id3v2_tag data

/-- Modelled from the spec: the frame-sync scan the claim describes - the
index of the first byte `0xFF` whose following byte has its top 3 bits all
set.  No such scan exists in mp3_decoder.cpp. -/
def find_frame_sync : List Nat → Nat → Option Nat
  | b0 :: b1 :: rest, i =>
      if b0 = 255 ∧ 224 ≤ b1 % 256 then some i else find_frame_sync (b1 :: rest) (i + 1)
  | _, _ => none

/-- The flush loop of `decode_mp3_to_pcm16` (mp3_decoder.cpp lines 154-182)
with the native decoder's successive flush return values given as an oracle
list: each positive return is appended; the loop breaks at the *first* zero
return.  `none` means the oracle was exhausted with the loop still running. -/
def mp3_flush_collect : List Nat → Option (List Nat)
  | [] => none
  | r :: rs => if r = 0 then some [] else (mp3_flush_collect rs).map (r :: ·)

/-- Modelled from the spec: the flush loop the claim describes, tolerating up
to 10 consecutive zero-sample returns before declaring end of stream. -/
def mp3_flush_collect_spec : List Nat → Nat → Option (List Nat)
  | [], _ => none
  | r :: rs, zeros =>
      if r = 0 then
        if 10 ≤ zeros + 1 then some [] else mp3_flush_collect_spec rs (zeros + 1)
      else (mp3_flush_collect_spec rs 0).map (r :: ·)

/-- C5 counterexample.  The claim's frame-sync scan and 10-zero flush
tolerance are absent from the code.  (1) On input `[0, 255, 224, 1, 2]`
(one junk byte, then a valid MPEG frame sync) the code feeds the data from
offset 0 - junk byte included - whereas the claimed scan would feed from
offset 1.  (2) With flush oracle `[0, 576, 0, ...]` the code's flush loop
stops at the first zero and appends nothing, whereas the claimed 10-zero
tolerance would deliver the 576 samples. -/
theorem mp3_decode_counterexample :
    mp3_feed_offset [0, 255, 224, 1, 2] = 0 ∧
    find_frame_sync [0, 255, 224, 1, 2] 0 = some 1 ∧
    (0 : Nat) ≠ 1 ∧
    mp3_flush_collect [0, 576, 0, 0, 0, 0, 0, 0, 0, 0, 0, 0] = some [] ∧
    mp3_flush_collect_spec [0, 576, 0, 0, 0, 0, 0, 0, 0, 0, 0, 0] 0 = some [576] ∧
    (some ([] : List Nat)) ≠ some [576] := by
  refine ⟨by decide, by decide, by decide, by decide, by decide, by decide⟩

theorem mp3_flush_collect_eq_takeWhile (rs : List Nat) (hz : 0 ∈ rs) :
    mp3_flush_collect rs = some (rs.takeWhile (fun r => decide (r ≠ 0))) := by
  induction rs with
  | nil => simp at hz
  | cons r rs ih =>
      by_cases h : r = 0
      · subst h
        simp [mp3_flush_collect, List.takeWhile_cons]
      · have hz' : 0 ∈ rs := by
          rcases List.mem_cons.mp hz with h0 | h0
          · exact absurd h0.symm h
          · exact h0
        simp [mp3_flush_collect, h, List.takeWhile_cons, ih hz']

/-- C5 (amended): the decode operation skips an optional ID3v2 header
(detected by the literal "ID3"; total skip = 10 + the 28-bit synchsafe
size) and feeds the data to the decoder starting *immediately* after that
skip - there is no frame-sync scan - and the final flush stops at the
*first* zero-sample return from the decoder (collecting exactly the returns
before the first zero), with no tolerance for further zeros. -/
theorem mp3_decode_amended (data : List Nat) (rs : List Nat) (hz : 0 ∈ rs) :
    (data.length < 10 ∨ data.getD 0 0 ≠ 73 ∨ data.getD 1 0 ≠ 68 ∨ data.getD 2 0 ≠ 51 →
      mp3_feed_offset data = 0) ∧
    (10 ≤ data.length → data.getD 0 0 = 73 → data.getD 1 0 = 68 → data.getD 2 0 = 51 →
      mp3_feed_offset data =
        10 + (data.getD 6 0 % 128 * 2097152 + data.getD 7 0 % 128 * 16384 +
          data.getD 8 0 % 128 * 128 + data.getD 9 0 % 128)) ∧
    mp3_flush_collect rs = some (rs.takeWhile (fun r => decide (r ≠ 0))) := by
  refine ⟨?_, ?_, mp3_flush_collect_eq_takeWhile rs hz⟩
  · intro h
    rw [mp3_feed_offset, skip_id3v2_tag, if_pos h]
  · intro h1 h2 h3 h4
    rw [mp3_feed_offset, skip_id3v2_tag, if_neg (by push_neg; exact ⟨by omega, h2, h3, h4⟩)]
    omega

/-- Witness for C5 (amended): an ID3v2 header of synchsafe size 257
(bytes 6-9 = 0,0,2,1) gives feed offset 267; the flush oracle `[5, 0]`
collects exactly `[5]`. -/
theorem mp3_decode_amended_witness :
    mp3_feed_offset [73, 68, 51, 4, 0, 0, 0, 0, 2, 1] = 267 ∧
    mp3_flush_collect [5, 0] = some [5] := by
  have h := mp3_decode_amended [73, 68, 51, 4, 0, 0, 0, 0, 2, 1] [5, 0] (by decide)
  refine ⟨?_, ?_⟩
  · exact (h.2.1 (by decide) (by decide) (by decide) (by decide)).trans (by decide)
  · exact h.2.2.trans (by decide)

/-! ## Resampler (src/src/resample.hpp, resample_audio lines 12-65)

`input_frames`, `output_sample_rate` and `input_sample_rate` are `size_t`
and `int`, so `input_frames * output_sample_rate / input_sample_rate` is an
*integer* division; `std::lround` is then applied to a value that is already
integral (converted to `double`) and is the identity. -/

/-- The output-frame count the code computes (resample.hpp line 26):
floor, not round-to-nearest. -/
def resample_out_frames (input_frames output_sample_rate input_sample_rate : Nat) : Nat :=
  input_frames * output_sample_rate / input_sample_rate

/-- The output-frame count the claim describes: `round(in_frames x out_rate
/ in_rate)` as exact rational arithmetic, rounding to nearest (half away
from zero, as `lround`). -/
def round_out_frames (input_frames output_sample_rate input_sample_rate : Nat) : Nat :=
  (2 * (input_frames * output_sample_rate) + input_sample_rate) / (2 * input_sample_rate)

/-- `resample_audio` (resample.hpp lines 12-65) with `soxr_oneshot`
abstracted by an oracle: `soxr_err` is the error flag and
`soxr_done_frames` the frame count it reports having produced.  Returns the
pair (output vector size after the initial resize, output vector size after
the final resize). -/
def resample_audio (input_sample_rate output_sample_rate num_channels
    input_sample_count soxr_done_frames : Nat) (soxr_err : Bool) :
    Except String (Nat × Nat) :=
  let input_frames := input_sample_count / num_channels
  let output_frames := resample_out_frames input_frames output_sample_rate input_sample_rate
  let output_sample_count := output_frames * num_channels
  if soxr_err then .error "failed to resample"
  else .ok (output_sample_count, soxr_done_frames * num_channels)

/-- C8 counterexample: resampling 21 frames from 44100 Hz to 48000 Hz.
`21 x 48000 / 44100 = 22.857...`, so the claimed round-to-nearest gives 23
frames, but the code's integer division gives 22. -/
theorem resample_rounding_counterexample :
    resample_out_frames 21 48000 44100 = 22 ∧
    round_out_frames 21 48000 44100 = 23 ∧
    (22 : Nat) ≠ 23 := by
  refine ⟨by decide, by decide, by decide⟩

theorem round_out_frames_eq_floor_plus (m ir : Nat) (hir : 0 < ir) :
    (2 * m + ir) / (2 * ir) = m / ir + (if ir ≤ 2 * (m % ir) then 1 else 0) := by
  have hmod := Nat.div_add_mod m ir
  have hr : m % ir < ir := Nat.mod_lt m hir
  have hrw : 2 * m + ir = (2 * (m % ir) + ir) + (2 * ir) * (m / ir) := by
    conv_lhs => rw [← hmod]
    ring
  rw [hrw, Nat.add_mul_div_left _ _ (by omega)]
  by_cases hc : ir ≤ 2 * (m % ir)
  · rw [if_pos hc]
    have h1 : (2 * (m % ir) + ir) / (2 * ir) = 1 :=
      Nat.div_eq_of_lt_le (by omega) (by omega)
    omega
  · rw [if_neg hc]
    have h0 : (2 * (m % ir) + ir) / (2 * ir) = 0 :=
      Nat.div_eq_of_lt (by omega)
    omega

/-- C8 (amended): `out_frames = floor(in_frames x out_rate / in_rate)`
(integer division, one frame less than round-to-nearest exactly when the
remainder is at least half the input rate); the output vector is sized to
`out_frames x channels` before the one-shot resample and afterwards resized
to exactly the produced frame count times channels. -/
theorem resample_audio_floor (ir orr ch cnt done : Nat) (err : Bool) (hir : 0 < ir) :
    resample_audio ir orr ch cnt done err =
      (if err then .error "failed to resample"
       else .ok (resample_out_frames (cnt / ch) orr ir * ch, done * ch)) ∧
    round_out_frames (cnt / ch) orr ir =
      resample_out_frames (cnt / ch) orr ir +
        (if ir ≤ 2 * (cnt / ch * orr % ir) then 1 else 0) := by
  constructor
  · rw [resample_audio]
  · rw [round_out_frames, resample_out_frames]
    exact round_out_frames_eq_floor_plus _ _ hir

/-- Witness for C8 (amended): 42 input samples in 2 channels (21 frames) at
44100 Hz resampled to 48000 Hz, the resampler reporting 23 produced frames:
the vector is allocated at 22 x 2 = 44 samples and finally resized to
23 x 2 = 46; the claimed rounding exceeds the code's floor by one here. -/
theorem resample_audio_floor_witness :
    resample_audio 44100 48000 2 42 23 false = .ok (44, 46) ∧
    round_out_frames 21 48000 44100 = resample_out_frames 21 48000 44100 + 1 := by
  have h := resample_audio_floor 44100 48000 2 42 23 false (by decide)
  refine ⟨h.1.trans (by rfl), ?_⟩
  exact h.2.trans (by decide)

/-! ## PCM codecs (src/src/audio_codec.cpp)

Byte buffers are `List Nat` (values below 256); samples are `Int` values in
the `int16_t` range.  `toInt16`/`toInt32` are the two's-complement
truncating casts; `2^16 = 65536`, `2^31 = 2147483648`, `2^32 = 4294967296`. -/

/-- Truncating cast to `int16_t`. -/
def toInt16 (z : Int) : Int := (z + 32768) % 65536 - 32768

/-- Truncating cast to `int32_t`. -/
def toInt32 (z : Int) : Int := (z + 2147483648) % 4294967296 - 2147483648

/-- The four little-endian bytes of an `int32_t` value. -/
def bytesOfInt32LE (v : Int) : List Nat :=
  [(v % 4294967296).toNat % 256,
   (v % 4294967296).toNat / 256 % 256,
   (v % 4294967296).toNat / 65536 % 256,
   (v % 4294967296).toNat / 16777216 % 256]

/-- The two little-endian bytes of an `int16_t` value. -/
def bytesOfInt16LE (s : Int) : List Nat :=
  [(s % 65536).toNat % 256, (s % 65536).toNat / 256 % 256]

/-- `convert_pcm16_to_pcm32` (audio_codec.cpp lines 38-50): each `int16_t`
sample `s` becomes the little-endian `int32_t` value `(int32_t)s << 16`. -/
def convert_pcm16_to_pcm32 : List Int → List Nat
  | [] => []
  | s :: rest => bytesOfInt32LE (toInt32 (s * 65536)) ++ convert_pcm16_to_pcm32 rest

/-- Reassembling an `int32_t` from four little-endian bytes (the
`reinterpret_cast<const int32_t*>` of audio_codec.cpp line 85). -/
def int32OfBytesLE (b0 b1 b2 b3 : Nat) : Int :=
  toInt32 ((b0 % 256 + b1 % 256 * 256 + b2 % 256 * 65536 + b3 % 256 * 16777216 : Nat) : Int)

/-- The conversion loop of `convert_pcm32_to_pcm16` (audio_codec.cpp lines
88-91): each `int32_t` is arithmetically shifted right by 16 (floor
division) and truncated to `int16_t`, emitted as two little-endian bytes. -/
def pcm32_to_pcm16_loop : List Nat → List Nat
  | b0 :: b1 :: b2 :: b3 :: rest =>
      bytesOfInt16LE (toInt16 ((int32OfBytesLE b0 b1 b2 b3).fdiv 65536)) ++
        pcm32_to_pcm16_loop rest
  | _ => []

/-- `convert_pcm32_to_pcm16` (audio_codec.cpp lines 77-92): fails unless the
byte count is divisible by 4, then converts sample by sample. -/
def convert_pcm32_to_pcm16 (data : List Nat) : Except String (List Nat) :=
  if data.length % 4 ≠ 0 then .error "PCM32 data size must be divisible by 4"
  else .ok (pcm32_to_pcm16_loop data)

/-- `copy_pcm16` (audio_codec.cpp lines 66-74): the PCM16 encoder, a
little-endian bit copy of the `int16_t` samples. -/
def copy_pcm16 : List Int → List Nat
  | [] => []
  | s :: rest => bytesOfInt16LE s ++ copy_pcm16 rest

/-- Reinterpreting a PCM16 byte buffer as `int16_t` samples (the
`reinterpret_cast<const int16_t*>` of speaker.cpp line 242). -/
def int16_samples_of_bytes : List Nat → List Int
  | b0 :: b1 :: rest => toInt16 ((b0 % 256 + b1 % 256 * 256 : Nat) : Int) :: int16_samples_of_bytes rest
  | _ => []

theorem convert_pcm16_to_pcm32_length (samples : List Int) :
    (convert_pcm16_to_pcm32 samples).length = 4 * samples.length := by
  induction samples with
  | nil => rfl
  | cons s rest ih =>
      simp [convert_pcm16_to_pcm32, bytesOfInt32LE, ih]
      omega

theorem pcm32_sample_roundtrip (s : Int) (h1 : -32768 ≤ s) (h2 : s < 32768) :
    toInt16 ((int32OfBytesLE
      ((toInt32 (s * 65536) % 4294967296).toNat % 256)
      ((toInt32 (s * 65536) % 4294967296).toNat / 256 % 256)
      ((toInt32 (s * 65536) % 4294967296).toNat / 65536 % 256)
      ((toInt32 (s * 65536) % 4294967296).toNat / 16777216 % 256)).fdiv 65536) = s := by
  have h32 : toInt32 (s * 65536) = s * 65536 := by
    rw [toInt32]; omega
  rw [h32]
  set u := ((s * 65536) % 4294967296).toNat with hu
  have hult : u < 4294967296 := by
    have := Int.emod_nonneg (s * 65536) (show (4294967296 : Int) ≠ 0 by decide)
    have := Int.emod_lt_of_pos (s * 65536) (show (0 : Int) < 4294967296 by decide)
    omega
  have hrecomp : u % 256 % 256 + u / 256 % 256 % 256 * 256 +
      u / 65536 % 256 % 256 * 65536 + u / 16777216 % 256 % 256 * 16777216 = u := by
    omega
  rw [int32OfBytesLE, hrecomp]
  have hcastu : ((u : Nat) : Int) = (s * 65536) % 4294967296 := by
    rw [hu]
    rw [Int.toNat_of_nonneg (Int.emod_nonneg _ (by decide))]
  rw [hcastu]
  have hval : toInt32 ((s * 65536) % 4294967296) = s * 65536 := by
    rw [toInt32]; omega
  rw [hval]
  rw [Int.mul_fdiv_cancel s (by decide)]
  rw [toInt16]; omega

theorem pcm16_sample_roundtrip (s : Int) (h1 : -32768 ≤ s) (h2 : s < 32768) :
    toInt16 ((((s % 65536).toNat % 256 % 256 +
      (s % 65536).toNat / 256 % 256 % 256 * 256 : Nat) : Int)) = s := by
  have hnn : (0 : Int) ≤ s % 65536 := Int.emod_nonneg _ (by decide)
  have hlt : s % 65536 < 65536 := Int.emod_lt_of_pos _ (by decide)
  set u := (s % 65536).toNat with hu
  have hult : u < 65536 := by omega
  have hrecomp : u % 256 % 256 + u / 256 % 256 % 256 * 256 = u := by omega
  rw [hrecomp]
  have hcastu : ((u : Nat) : Int) = s % 65536 := by
    rw [hu, Int.toNat_of_nonneg hnn]
  rw [hcastu, toInt16]
  omega

theorem pcm32_to_pcm16_loop_roundtrip (samples : List Int)
    (h : ∀ s ∈ samples, -32768 ≤ s ∧ s < 32768) :
    pcm32_to_pcm16_loop (convert_pcm16_to_pcm32 samples) = copy_pcm16 samples := by
  induction samples with
  | nil => rfl
  | cons s rest ih =>
      have hs := h s (List.mem_cons_self s rest)
      have hrest : ∀ x ∈ rest, -32768 ≤ x ∧ x < 32768 :=
        fun x hx => h x (List.mem_cons_of_mem s hx)
      show pcm32_to_pcm16_loop (bytesOfInt32LE (toInt32 (s * 65536)) ++
        convert_pcm16_to_pcm32 rest) = bytesOfInt16LE s ++ copy_pcm16 rest
      rw [bytesOfInt32LE]
      show bytesOfInt16LE (toInt16 ((int32OfBytesLE _ _ _ _).fdiv 65536)) ++
        pcm32_to_pcm16_loop (convert_pcm16_to_pcm32 rest) = _
      rw [pcm32_sample_roundtrip s hs.1 hs.2, ih hrest]

theorem int16_samples_of_copy_pcm16 (samples : List Int)
    (h : ∀ s ∈ samples, -32768 ≤ s ∧ s < 32768) :
    int16_samples_of_bytes (copy_pcm16 samples) = samples := by
  induction samples with
  | nil => rfl
  | cons s rest ih =>
      have hs := h s (List.mem_cons_self s rest)
      have hrest : ∀ x ∈ rest, -32768 ≤ x ∧ x < 32768 :=
        fun x hx => h x (List.mem_cons_of_mem s hx)
      show int16_samples_of_bytes (bytesOfInt16LE s ++ copy_pcm16 rest) = s :: rest
      rw [bytesOfInt16LE]
      show toInt16 _ :: int16_samples_of_bytes (copy_pcm16 rest) = s :: rest
      rw [pcm16_sample_roundtrip s hs.1 hs.2, ih hrest]

/-- C9: for every finite sequence of `int16_t` samples, encoding with the
PCM32 encoder (`(int32_t)s << 16`, little-endian) and decoding with the
PCM32 decoder (`(int16_t)(s32 >> 16)`) succeeds and yields exactly the
little-endian PCM16 image of the original samples, which reinterprets to
the original sample sequence: the round-trip is the identity. -/
theorem pcm32_roundtrip_identity (samples : List Int)
    (h : ∀ s ∈ samples, -32768 ≤ s ∧ s < 32768) :
    convert_pcm32_to_pcm16 (convert_pcm16_to_pcm32 samples) =
      .ok (copy_pcm16 samples) ∧
    int16_samples_of_bytes (copy_pcm16 samples) = samples := by
  constructor
  · rw [convert_pcm32_to_pcm16, convert_pcm16_to_pcm32_length,
      if_neg (by omega)]
    rw [pcm32_to_pcm16_loop_roundtrip samples h]
  · exact int16_samples_of_copy_pcm16 samples h

/-- Witness for C9: the round-trip at the concrete sample sequence
`[0, 1, -1, 32767, -32768]`. -/
theorem pcm32_roundtrip_identity_witness :
    convert_pcm32_to_pcm16 (convert_pcm16_to_pcm32 [0, 1, -1, 32767, -32768]) =
      .ok (copy_pcm16 [0, 1, -1, 32767, -32768]) ∧
    int16_samples_of_bytes (copy_pcm16 [0, 1, -1, 32767, -32768]) =
      [0, 1, -1, 32767, -32768] :=
  pcm32_roundtrip_identity [0, 1, -1, 32767, -32768] (by decide)

/-! ## Speaker play pipeline (src/src/speaker.cpp, Speaker::play lines 188-325)

The decode/validate/resample/write pipeline, translated step by step.  The
MP3 decoder and the float conversion feed on native/floating-point results
and are abstracted as oracles; every validation branch (missing info,
unknown codec, decode failure, odd PCM16 byte length, channel mismatch,
resample failure, duration over the history window) is kept.  The function
returns the speaker's stream-context state after the call together with the
error, if one was thrown. -/

inductive AudioCodec where
  | pcm16
  | pcm32
  | pcm32float
  | mp3
  deriving DecidableEq

/-- `parse_codec` (audio_codec.cpp lines 19-36): lower-case the string and
match it against the four supported names, throwing otherwise. -/
def parse_codec (codec_str : String) : Except String AudioCodec :=
  let codec := codec_str.toLower
  if codec = "pcm32" then .ok .pcm32
  else if codec = "pcm32_float" then .ok .pcm32float
  else if codec = "mp3" then .ok .mp3
  else if codec = "pcm16" then .ok .pcm16
  else .error "Unsupported codec"

/-- `convert_float32_to_pcm16` (audio_codec.cpp lines 95-111): fails unless
the byte count is divisible by 4; the clamped float-to-int16 values
themselves are floating-point and are supplied by the oracle
`float_decoded`. -/
def convert_float32_to_pcm16 (data : List Nat) (float_decoded : List Nat) :
    Except String (List Nat) :=
  if data.length % 4 ≠ 0 then .error "Float32 data size must be divisible by 4"
  else .ok float_decoded

structure AudioInfo where
  codec : String
  sample_rate_hz : Nat
  num_channels : Nat

/-- The speaker state visible to `play`: resolved configuration plus the
output stream context's write counter. -/
structure SpeakerState where
  sample_rate_ : Nat
  num_channels_ : Nat
  total_samples_written : Nat
  deriving DecidableEq

/-- The output buffer's history window (audio_buffer.hpp line 15). -/
def BUFFER_DURATION_SECONDS : Nat := 30

/-- The decode step of `Speaker::play` (speaker.cpp lines 209-233), yielding
the decoded PCM16 bytes and the sample rate and channel count that govern
the rest of the call (for MP3 these come from the decoded stream, not from
`info`). -/
def play_decode (codec : AudioCodec) (audio_data : List Nat) (i : AudioInfo)
    (mp3_result : Except String (List Nat × Nat × Nat)) (float_decoded : List Nat) :
    Except String (List Nat × Nat × Nat) :=
  match codec with
  | .mp3 => mp3_result
  | .pcm32 =>
      (convert_pcm32_to_pcm16 audio_data).map
        (fun d => (d, i.sample_rate_hz, i.num_channels))
  | .pcm32float =>
      (convert_float32_to_pcm16 audio_data float_decoded).map
        (fun d => (d, i.sample_rate_hz, i.num_channels))
  | .pcm16 => .ok (audio_data, i.sample_rate_hz, i.num_channels)

/-- The conditional resample step of `Speaker::play` (speaker.cpp lines
259-274), yielding the final sample count and rate. -/
def play_resample (audio_sample_rate speaker_sample_rate audio_num_channels
    num_samples soxr_done_frames : Nat) (soxr_err : Bool) :
    Except String (Nat × Nat) :=
  if audio_sample_rate ≠ speaker_sample_rate then
    match resample_audio audio_sample_rate speaker_sample_rate
        audio_num_channels num_samples soxr_done_frames soxr_err with
    | .error e => .error e
    | .ok (_, final_count) => .ok (final_count, speaker_sample_rate)
  else .ok (num_samples, audio_sample_rate)

/-- `Speaker::play` (speaker.cpp lines 188-325).  `mp3_result` is the oracle
outcome of `decode_mp3_to_pcm16` (decoded bytes plus the sample rate and
channel count discovered from the stream); `float_decoded` the oracle bytes
of the float conversion; `soxr_done_frames`/`soxr_err` the `soxr_oneshot`
oracle.  Returns (state after the call, thrown error if any); the only
mutation of the stream context is the sample-writing loop of lines 302-304,
and the post-write drain wait throws nothing. -/
def play (spk : SpeakerState) (audio_data : List Nat) (info : Option AudioInfo)
    (mp3_result : Except String (List Nat × Nat × Nat))
    (float_decoded : List Nat)
    (soxr_done_frames : Nat) (soxr_err : Bool) :
    SpeakerState × Option String :=
  match info with
  | none => (spk, some "[Play]: Must specify audio info parameter")
  | some i =>
    match parse_codec i.codec with
    | .error e => (spk, some e)
    | .ok codec =>
      match play_decode codec audio_data i mp3_result float_decoded with
      | .error e => (spk, some e)
      | .ok (decoded_data, audio_sample_rate, audio_num_channels) =>
        if decoded_data.length % 2 ≠ 0 then
          (spk, some "got invalid data size, cannot convert to int16")
        else if audio_num_channels ≠ spk.num_channels_ then
          (spk, some "Channel mismatch")
        else
          match play_resample audio_sample_rate spk.sample_rate_ audio_num_channels
              (decoded_data.length / 2) soxr_done_frames soxr_err with
          | .error e => (spk, some e)
          | .ok (final_num_samples, final_sample_rate) =>
            if BUFFER_DURATION_SECONDS * (final_sample_rate * audio_num_channels) <
                final_num_samples then
              (spk, some "Audio file too long for playback buffer")
            else
              ({ spk with total_samples_written :=
                  spk.total_samples_written + final_num_samples }, none)

/-- C10: error atomicity of `play`.  Whatever the inputs and oracle
outcomes, if the call throws (returns an error) then the output stream
context is untouched: in particular its `total_samples_written` is exactly
what it was before the call.  This holds because every throw site in
`Speaker::play` precedes the sample-writing loop and nothing after the loop
throws. -/
theorem play_error_atomicity (spk : SpeakerState) (audio_data : List Nat)
    (info : Option AudioInfo) (mp3_result : Except String (List Nat × Nat × Nat))
    (float_decoded : List Nat) (soxr_done_frames : Nat) (soxr_err : Bool)
    (herr : (play spk audio_data info mp3_result float_decoded
      soxr_done_frames soxr_err).2.isSome) :
    (play spk audio_data info mp3_result float_decoded
      soxr_done_frames soxr_err).1 = spk ∧
    (play spk audio_data info mp3_result float_decoded
      soxr_done_frames soxr_err).1.total_samples_written =
        spk.total_samples_written := by
  suffices hfst : (play spk audio_data info mp3_result float_decoded
      soxr_done_frames soxr_err).1 = spk by
    exact ⟨hfst, by rw [hfst]⟩
  rw [play.eq_def] at herr ⊢
  repeat' split <;> simp_all

/-- Witness for C10: a `play` call with a missing `info` parameter throws
and leaves the context's write counter at its prior value (123). -/
theorem play_error_atomicity_witness :
    (play ⟨48000, 2, 123⟩ [] none (.error "no mp3") [] 0 false).1 = ⟨48000, 2, 123⟩ ∧
    (play ⟨48000, 2, 123⟩ [] none (.error "no mp3") [] 0 false).1.total_samples_written = 123 :=
  play_error_atomicity ⟨48000, 2, 123⟩ [] none (.error "no mp3") [] 0 false (by rfl)

end SystemAudio
